import Mathlib

set_option maxRecDepth 100000

/-!
Verification of the Operational State & Diagnostics Subsystem of
cloudfoundry-top-plugin: the metadata caches (`metadata` package: app and
route caches) and the diagnostic log ring buffer with its viewport
(`toplog` package).

The Go code is shallowly embedded: package-level mutable variables become
fields of explicit state structures that every operation threads through;
Go `float64` fields are modelled as `ℚ`, Go `int` as `Int`, Go slices as
`List`.  `time.Now()` is modelled by a ghost monotone counter `clock`.
Mutex operations, the gocui rendering calls and clipboard writes have no
observable effect on the modelled state and are elided.
-/

namespace toplog

/-- Log severity levels; in Go `LogLevel` is a string and these are the
constants `DebugLevel = "D"`, `InfoLevel`, `WarnLevel`, `ErrorLevel`,
`MarkerLevel`. -/
inductive LogLevel where
  | DebugLevel
  | InfoLevel
  | WarnLevel
  | ErrorLevel
  | MarkerLevel
  deriving DecidableEq

/-- The one-letter code of each level (the Go string constant itself). -/
def levelCode : LogLevel → String
  | .DebugLevel => "D"
  | .InfoLevel => "I"
  | .WarnLevel => "W"
  | .ErrorLevel => "E"
  | .MarkerLevel => "M"

/-- Go constant `RED = "\033[31"`. -/
def RED : String := "\x1b[31"

/-- Go constant `YELLOW = "\033[33"`. -/
def YELLOW : String := "\x1b[33"

/-- Go constant `WHITE = "\033[37"`. -/
def WHITE : String := "\x1b[37"

/-- Go constant `BRIGHT = ";1m"`. -/
def BRIGHT : String := ";1m"

/-- Go constant `DIM = ";2m"`. -/
def DIM : String := ";2m"

/-- Go constant `MAX_LOG_FILES = 1000`: capacity of the log ring buffer. -/
def MAX_LOG_FILES : Nat := 1000

/-- Go constant `WindowHeaderSize = 2`. -/
def WindowHeaderSize : Int := 2

/-- Go struct `LogLine`: level, message and creation timestamp (the
timestamp is the ghost clock value at creation). -/
structure LogLine where
  level : LogLevel
  message : String
  timestamp : Nat
  deriving DecidableEq

/-- Go `NewLogLine`. -/
def NewLogLine (level : LogLevel) (message : String) (timestamp : Nat) : LogLine :=
  ⟨level, message, timestamp⟩

/-- The package-level mutable state of `toplog`, flattened together with
the single `DebugWidget`'s fields (`height`, `width`, `viewOffset`,
`horizonalOffset`).  `clock` is the ghost time source; `guiPresent`
models `gui != nil`. -/
structure TopLogState where
  debugLines : List LogLine
  windowOpen : Bool
  freezeAutoScroll : Bool
  debugEnabled : Bool
  autoShowErrorEnabled : Bool
  debugMsgDelta : Int
  infoMsgDelta : Int
  warnMsgDelta : Int
  errorMsgDelta : Int
  height : Int
  width : Int
  viewOffset : Int
  horizonalOffset : Int
  clock : Nat
  guiPresent : Bool
  deriving DecidableEq

/-- `strings.Replace(msg, "\n", " | ", -1)` in `logMsg`. -/
def normalizeMsg (msg : String) : String :=
  msg.replace "\n" " | "

/-- The buffer update performed by `logMsg` (lines 211-214 of toplog.go):
append the new line, then evict the oldest line when over capacity. -/
def appendEvict (lines : List LogLine) (logLine : LogLine) : List LogLine :=
  let lines := lines ++ [logLine]
  if MAX_LOG_FILES < lines.length then lines.drop 1 else lines

/-- Go `scrollToLastLogLine`. -/
def scrollToLastLogLine (s : TopLogState) : TopLogState :=
  let logSize : Int := s.debugLines.length
  let viewOffset := logSize - (s.height - WindowHeaderSize)
  let viewOffset := if viewOffset < 0 then 0 else viewOffset
  { s with viewOffset := viewOffset }

/-- Go `logMsg`: normalize newlines, timestamp, append with eviction, and
re-tail the view when the window is open and not frozen.  The
`fmt.Sprintf` varargs formatting is modelled by taking the final message. -/
def logMsg (level : LogLevel) (msg : String) (s : TopLogState) : TopLogState :=
  let msg := normalizeMsg msg
  let logLine := NewLogLine level msg s.clock
  let s := { s with debugLines := appendEvict s.debugLines logLine, clock := s.clock + 1 }
  if s.windowOpen && !s.freezeAutoScroll then scrollToLastLogLine s else s

/-- Go `openView`: marks the window open and zeroes the delta counters
(the layout-manager calls have no modelled effect). -/
def openView (s : TopLogState) : TopLogState :=
  { s with windowOpen := true, debugMsgDelta := 0, infoMsgDelta := 0,
           warnMsgDelta := 0, errorMsgDelta := 0 }

/-- Go `Open`. -/
def Open (s : TopLogState) : TopLogState :=
  if s.guiPresent then
    openView (if !s.freezeAutoScroll then scrollToLastLogLine s else s)
  else s

/-- Go `Debug`: appended only when debug output is enabled. -/
def Debug (msg : String) (s : TopLogState) : TopLogState :=
  if s.debugEnabled then
    let s := logMsg .DebugLevel msg s
    if !s.windowOpen then { s with debugMsgDelta := s.debugMsgDelta + 1 } else s
  else s

/-- Go `Info`. -/
def Info (msg : String) (s : TopLogState) : TopLogState :=
  let s := logMsg .InfoLevel msg s
  if !s.windowOpen then { s with infoMsgDelta := s.infoMsgDelta + 1 } else s

/-- Go `Warn`. -/
def Warn (msg : String) (s : TopLogState) : TopLogState :=
  let s := logMsg .WarnLevel msg s
  if !s.windowOpen then { s with warnMsgDelta := s.warnMsgDelta + 1 } else s

/-- Go `Error`: may auto-open the viewport. -/
def Error (msg : String) (s : TopLogState) : TopLogState :=
  let s := logMsg .ErrorLevel msg s
  let s := if !s.windowOpen then { s with errorMsgDelta := s.errorMsgDelta + 1 } else s
  if s.autoShowErrorEnabled then Open s else s

/-- Go `markLastLocation`: the source scans for the first index whose
level is `MarkerLevel` and splices it out (`append(a[:i], a[i+1:]...)`),
which is exactly removing the first marker line; then appends a fresh
marker via `logMsg`. -/
def markLastLocation (s : TopLogState) : TopLogState :=
  let erased := s.debugLines.eraseP (fun logLine => logLine.level == .MarkerLevel)
  logMsg .MarkerLevel "------" { s with debugLines := erased }

/-- Go `closeDebugWidget` (the gocui highlight reset has no modelled
effect). -/
def closeDebugWidget (s : TopLogState) : TopLogState :=
  markLastLocation { s with windowOpen := false, freezeAutoScroll := false }

/-- Go `arrowRight`. -/
def arrowRight (s : TopLogState) : TopLogState :=
  { s with horizonalOffset := s.horizonalOffset + 5 }

/-- Go `arrowLeft`. -/
def arrowLeft (s : TopLogState) : TopLogState :=
  let h := s.horizonalOffset - 5
  { s with horizonalOffset := if h < 0 then 0 else h }

/-- Go `arrowUp`. -/
def arrowUp (s : TopLogState) : TopLogState :=
  if s.viewOffset > 0 then
    { s with viewOffset := s.viewOffset - 1, freezeAutoScroll := true }
  else s

/-- Go `arrowDown`. -/
def arrowDown (s : TopLogState) : TopLogState :=
  let len : Int := s.debugLines.length
  let h := s.height - WindowHeaderSize
  let s :=
    if s.viewOffset < len ∧ len - h > s.viewOffset then
      { s with viewOffset := s.viewOffset + 1 }
    else s
  if ¬(s.viewOffset < len ∧ len - h > s.viewOffset) then
    { s with freezeAutoScroll := false }
  else s

/-- Go `pageUp`. -/
def pageUp (s : TopLogState) : TopLogState :=
  if s.viewOffset > 0 then
    let vo := s.viewOffset - (s.height - WindowHeaderSize)
    let vo := if vo < 0 then 0 else vo
    { s with viewOffset := vo, freezeAutoScroll := true }
  else s

/-- Go `pageDown`. -/
def pageDown (s : TopLogState) : TopLogState :=
  let len : Int := s.debugLines.length
  let h := s.height - WindowHeaderSize
  let s := { s with viewOffset := s.viewOffset + h }
  if ¬(s.viewOffset < len ∧ len - h > s.viewOffset) then
    { s with viewOffset := len - h, freezeAutoScroll := false }
  else s

/-- The message-truncation step of `getFormattedLogLine`
(`if w.horizonalOffset < len(msg) { msg = msg[w.horizonalOffset:] } else
{ msg = "" }`).  Go byte-slicing would panic on a negative offset; the
operations below keep the offset non-negative. -/
def truncMsg (horizonalOffset : Int) (msg : String) : String :=
  if horizonalOffset < (msg.length : Int) then msg.drop horizonalOffset.toNat else ""

/-- Stands for the Go `timestamp.Format("2006-01-02 15:04:05.000 MST")`
applied to the ghost clock value. -/
def fmtTimestamp (t : Nat) : String := toString t

/-- The per-line body of `getFormattedLogLine`: color by level, then
either the fixed marker banner or `color ++ ts ++ " " ++ level ++ " " ++
msg ++ "\n"`. -/
def formatLogLine (horizonalOffset : Int) (logLine : LogLine) : String :=
  let msg := truncMsg horizonalOffset logLine.message
  let color :=
    match logLine.level with
    | .ErrorLevel => RED ++ DIM
    | .WarnLevel => YELLOW ++ DIM
    | .InfoLevel => WHITE ++ DIM
    | .DebugLevel => WHITE ++ DIM
    | .MarkerLevel => WHITE ++ BRIGHT
  if logLine.level == .MarkerLevel then
    color ++ "_________________ New Messages Below _______________________\n"
  else
    color ++ fmtTimestamp logLine.timestamp ++ " " ++ levelCode logLine.level ++ " " ++ msg ++ "\n"

/-- Go `getFormattedLogLine` (indexes `debugLines[index]`; callers only
pass indices below the length, so an arbitrary default line is used to
totalize). -/
def getFormattedLogLine (s : TopLogState) (index : Nat) : String :=
  formatLogLine s.horizonalOffset (s.debugLines.getD index (NewLogLine .InfoLevel "" 0))

/-- Go `getAllLogLines`: a `bytes.Buffer` accumulating
`getFormattedLogLine(index)` for `index` from `0` to `len-1`. -/
def getAllLogLines (s : TopLogState) : String :=
  (List.range s.debugLines.length).foldl (fun buffer index => buffer ++ getFormattedLogLine s index) ""

/-- Number of marker-level lines in a buffer. -/
def markerCount (lines : List LogLine) : Nat :=
  lines.countP (fun logLine => logLine.level == .MarkerLevel)

end toplog

namespace metadata

/-- Go constant `MEGABYTE = 1024 * 1024` (float64 arithmetic modelled in ℚ). -/
def MEGABYTE : ℚ := 1024 * 1024

/-- Modelled from the spec: the Paginated Retry Fetcher of §4.1
(`callPagableAPI` / `callRetriableAPI` are not under src/).  A fetch
script describes one fetcher run from the page handler's point of view:
`pages` are the successive pages the remote returns, `some p` a page that
decodes to `p` and `none` a page whose bytes never unmarshal (so the
handler fails on every retry); `netFail` is a transport failure that ends
the run after the listed pages. -/
structure FetchScript (ρ : Type) where
  pages : List (Option ρ)
  netFail : Bool

/-- Modelled from the spec: §4.1 — deliver each decoded page to the
handler in order; on a page that never decodes, or on a transport
failure after the last delivered page, abort and report the error
upward, leaving the accumulator as the handler last left it. -/
def callPagableAPI {ρ σ : Type} (handler : σ → ρ → σ) :
    List (Option ρ) → Bool → σ → σ × Option String
  | [], netFail, s => (s, if netFail then some "network error" else none)
  | none :: _, _, s => (s, some "unmarshal parsing output")
  | some page :: rest, netFail, s => callPagableAPI handler rest netFail (handler s page)

/-- Modelled from the spec: the retriable variant used by
`getAppMetadata` for `/v2/apps`; same contract as `callPagableAPI`
(§4.1: the retry loop is internal, and on exhaustion the error is
reported upward). -/
def callRetriableAPI {ρ σ : Type} (handler : σ → ρ → σ)
    (pages : List (Option ρ)) (netFail : Bool) (s : σ) : σ × Option String :=
  callPagableAPI handler pages netFail s

/-- Go struct `Meta` (the API envelope's metadata block; only `Guid` is
used by these caches). -/
structure Meta where
  Guid : String
  deriving DecidableEq

/-- Go struct `App` (src/unnamed/part_000 lines 25-61).  `float64`
fields are ℚ; `Environment` (`map[string]interface` in Go) is modelled
as an association list with string values — it is never inspected by
the code under verification.  Field defaults are Go's zero values. -/
structure App where
  Guid : String := ""
  Name : String := ""
  SpaceGuid : String := ""
  SpaceName : String := ""
  OrgGuid : String := ""
  OrgName : String := ""
  StackGuid : String := ""
  MemoryMB : ℚ := 0
  DiskQuotaMB : ℚ := 0
  Environment : List (String × String) := []
  Instances : ℚ := 0
  State : String := ""
  EnableSsh : Bool := false
  PackageState : String := ""
  StagingFailedReason : String := ""
  StagingFailedDesc : String := ""
  DetectedStartCmd : String := ""
  Console : Bool := false
  Buildpack : String := ""
  DetectedBuildpack : String := ""
  HealthcheckType : String := ""
  HealthcheckTimeout : ℚ := 0
  Production : Bool := false
  deriving DecidableEq

/-- The Go zero value `App{}`. -/
def App.zero : App := {}

/-- Go struct `AppResource`: `{metadata: ..., entity: ...}` wrapper. -/
structure AppResource where
  Meta : metadata.Meta
  Entity : App
  deriving DecidableEq

/-- Go struct `AppResponse`. -/
structure AppResponse where
  Count : Int
  Pages : Int
  NextUrl : String
  Resources : List AppResource
  deriving DecidableEq

/-- The package-level mutable variables of the app cache:
`appsMetadataCache`, `totalMemoryAllStartedApps`,
`totalDiskAllStartedApps`. -/
structure AppMetadataState where
  appsMetadataCache : List App
  totalMemoryAllStartedApps : ℚ
  totalDiskAllStartedApps : ℚ
  deriving DecidableEq

/-- Go `AppMetadataSize`. -/
def AppMetadataSize (s : AppMetadataState) : Nat :=
  s.appsMetadataCache.length

/-- Go `AllApps`. -/
def AllApps (s : AppMetadataState) : List App :=
  s.appsMetadataCache

/-- The linear scan of Go `FindAppMetadata`. -/
def findAppInList (appId : String) : List App → App
  | [] => App.zero
  | app :: rest => if app.Guid == appId then app else findAppInList appId rest

/-- Go `FindAppMetadata`: linear scan; `App{}` when not found. -/
def FindAppMetadata (s : AppMetadataState) (appId : String) : App :=
  findAppInList appId s.appsMetadataCache

/-- Go `GetTotalMemoryAllStartedApps`: recomputed only when the cached
total is `0` (the "zero means uncomputed" sentinel); the loop adds
`(app.MemoryMB * MEGABYTE) * app.Instances` for apps whose state is
`"STARTED"`, accumulating into the cached total (which is `0` in this
branch). -/
def GetTotalMemoryAllStartedApps (s : AppMetadataState) : ℚ × AppMetadataState :=
  if s.totalMemoryAllStartedApps = 0 then
    let t := s.appsMetadataCache.foldl
      (fun total app =>
        if app.State == "STARTED" then total + app.MemoryMB * MEGABYTE * app.Instances
        else total)
      s.totalMemoryAllStartedApps
    (t, { s with totalMemoryAllStartedApps := t })
  else
    (s.totalMemoryAllStartedApps, s)

/-- Go `GetTotalDiskAllStartedApps` (same pattern with `DiskQuotaMB`). -/
def GetTotalDiskAllStartedApps (s : AppMetadataState) : ℚ × AppMetadataState :=
  if s.totalDiskAllStartedApps = 0 then
    let t := s.appsMetadataCache.foldl
      (fun total app =>
        if app.State == "STARTED" then total + app.DiskQuotaMB * MEGABYTE * app.Instances
        else total)
      s.totalDiskAllStartedApps
    (t, { s with totalDiskAllStartedApps := t })
  else
    (s.totalDiskAllStartedApps, s)

/-- The page handler closure inside Go `getAppMetadata`: for each
resource, reconcile the entity's guid from the metadata block and append
the entity to the accumulator. -/
def handleRequestApp (appsMetadata : List App) (appResp : AppResponse) : List App :=
  appResp.Resources.foldl
    (fun appsMetadata app => appsMetadata ++ [{ app.Entity with Guid := app.Meta.Guid }])
    appsMetadata

/-- Go `getAppMetadata`: runs `callRetriableAPI` (discarding its error),
flushes the memoized totals to `0`, and returns the accumulator with a
`nil` error — the source's `return appsMetadata, nil` is the literal
`none` here, whatever the fetch did. -/
def getAppMetadata (s : AppMetadataState) (script : FetchScript AppResponse) :
    (List App × Option String) × AppMetadataState :=
  (((callRetriableAPI handleRequestApp script.pages script.netFail []).1, none),
   { s with totalMemoryAllStartedApps := 0, totalDiskAllStartedApps := 0 })

/-- Go `LoadAppCache`: on a non-nil error only logs (`debug.Warn`) and
returns; otherwise publishes the freshly accumulated records. -/
def LoadAppCache (s : AppMetadataState) (script : FetchScript AppResponse) : AppMetadataState :=
  let r := getAppMetadata s script
  match r.1.2 with
  | some _ => r.2
  | none => { r.2 with appsMetadataCache := r.1.1 }

/-- Go struct `Route` (src/metadata/common/metadata.go lines 98-106).
Field defaults are Go's zero values. -/
structure Route where
  Guid : String := ""
  Host : String := ""
  Path : String := ""
  DomainGuid : String := ""
  SpaceGuid : String := ""
  ServiceInstanceGuid : String := ""
  Port : Int := 0
  deriving DecidableEq

/-- The Go zero value `Route{}`. -/
def Route.zero : Route := {}

/-- Go struct `RouteResource`. -/
structure RouteResource where
  Meta : metadata.Meta
  Entity : Route
  deriving DecidableEq

/-- Go struct `RouteResponse`. -/
structure RouteResponse where
  Count : Int
  Pages : Int
  NextUrl : String
  Resources : List RouteResource
  deriving DecidableEq

/-- The package-level mutable variable `routesMetadataCache` (Go holds
`[]*Route`; pointees are modelled by value). -/
structure RouteMetadataState where
  routesMetadataCache : List Route
  deriving DecidableEq

/-- Go `AllRoutes`. -/
def AllRoutes (s : RouteMetadataState) : List Route :=
  s.routesMetadataCache

/-- The linear scan of Go `FindRouteMetadata`; note the not-found result
is `&Route{Guid: routeGuid}`, a fresh record carrying the requested
guid, not the zero value. -/
def findRouteInList (routeGuid : String) : List Route → Route
  | [] => { Route.zero with Guid := routeGuid }
  | route :: rest => if route.Guid == routeGuid then route else findRouteInList routeGuid rest

/-- Go `FindRouteMetadata`. -/
def FindRouteMetadata (s : RouteMetadataState) (routeGuid : String) : Route :=
  findRouteInList routeGuid s.routesMetadataCache

/-- The page handler closure inside Go `getRouteMetadata`. -/
def handleRequestRoute (routesAcc : List Route) (response : RouteResponse) : List Route :=
  response.Resources.foldl
    (fun routesAcc item => routesAcc ++ [{ item.Entity with Guid := item.Meta.Guid }])
    routesAcc

/-- Go `getRouteMetadata`: runs `callPagableAPI` and (unlike
`getAppMetadata`) returns its error to the caller. -/
def getRouteMetadata (script : FetchScript RouteResponse) : List Route × Option String :=
  callPagableAPI handleRequestRoute script.pages script.netFail []

/-- Go `LoadRouteCache`: on a non-nil error only logs (`toplog.Warn`)
and returns, retaining the previous snapshot; otherwise publishes the
freshly accumulated records. -/
def LoadRouteCache (s : RouteMetadataState) (script : FetchScript RouteResponse) :
    RouteMetadataState :=
  let r := getRouteMetadata script
  match r.2 with
  | some _ => s
  | none => { s with routesMetadataCache := r.1 }

end metadata

/-- Concatenation of a list of strings in order (used to state what the
export produces, one formatted line per buffered line). -/
def concatLines : List String → String
  | [] => ""
  | line :: rest => line ++ concatLines rest

/-- A pre-existing cached app (pre-reload snapshot) for the C1 scenario. -/
def c1OldApp : metadata.App :=
  { metadata.App.zero with Guid := "app-old", Name := "old-app", State := "STARTED" }

/-- The entity body of the single app delivered before the fetch fails. -/
def c1NewEntity : metadata.App :=
  { metadata.App.zero with Guid := "entity-guid", Name := "new-app" }

/-- C1 fetch script for the app cache: one page decodes and is handed to
the handler, then the fetch fails (transport error before the next
page), so the fetcher reports an error after N = 1 pages. -/
def c1AppScript : metadata.FetchScript metadata.AppResponse :=
  { pages := [some { Count := 2, Pages := 2, NextUrl := "/v2/apps?page=2",
                     Resources := [{ Meta := ⟨"app-new"⟩, Entity := c1NewEntity }] }],
    netFail := true }

/-- The app-cache state before the failed reload. -/
def c1PreState : metadata.AppMetadataState :=
  { appsMetadataCache := [c1OldApp], totalMemoryAllStartedApps := 0,
    totalDiskAllStartedApps := 0 }

/-- A pre-existing cached route for the C1 scenario. -/
def c1OldRoute : metadata.Route :=
  { metadata.Route.zero with Guid := "route-old", Host := "old-host" }

/-- C1 fetch script for the route cache: same shape — one decoded page,
then a transport failure. -/
def c1RouteScript : metadata.FetchScript metadata.RouteResponse :=
  { pages := [some { Count := 2, Pages := 2, NextUrl := "/v2/routes?page=2",
                     Resources := [{ Meta := ⟨"route-new"⟩,
                                     Entity := { metadata.Route.zero with Guid := "e" } }] }],
    netFail := true }

/-- The route-cache state before the failed reload. -/
def c1PreRouteState : metadata.RouteMetadataState :=
  { routesMetadataCache := [c1OldRoute] }

/-- A concrete log line for the C3 witness. -/
def c3Line : toplog.LogLine := toplog.NewLogLine .InfoLevel "x" 0

/-- A closed, concrete state with an empty buffer for witnesses. -/
def emptyLogState : toplog.TopLogState :=
  { debugLines := [], windowOpen := false, freezeAutoScroll := false,
    debugEnabled := false, autoShowErrorEnabled := false,
    debugMsgDelta := 0, infoMsgDelta := 0, warnMsgDelta := 0, errorMsgDelta := 0,
    height := 12, width := 80, viewOffset := 0, horizonalOffset := 0,
    clock := 0, guiPresent := true }

/-- Concrete state for the C5 witness: its buffer already holds one
marker line (plus an info line). -/
def c5State : toplog.TopLogState :=
  { emptyLogState with debugLines :=
      [toplog.NewLogLine .InfoLevel "i" 0, toplog.NewLogLine .MarkerLevel "------" 1] }

/-- Modelled from the spec: the fixed per-line export format
`<timestamp> <level-code> <message>` that the claim asserts.  This
definition follows the spec's words for comparison with the code's
formatter; it is deliberately not a translation of the source. -/
def claimedExportLine (logLine : toplog.LogLine) : String :=
  toplog.fmtTimestamp logLine.timestamp ++ " " ++ toplog.levelCode logLine.level ++ " "
    ++ logLine.message ++ "\n"

/-- Concrete state for the C8 counterexample: one info line and one
marker line, horizontal pan at 0. -/
def c8State : toplog.TopLogState :=
  { emptyLogState with debugLines :=
      [toplog.NewLogLine .InfoLevel "hello" 0, toplog.NewLogLine .MarkerLevel "------" 1] }

section Helpers

/-- Folding an append-one-element accumulator is the same as appending
the mapped list. -/
theorem foldl_append_singleton {α β : Type} (f : α → β) :
    ∀ (l : List α) (acc : List β),
      l.foldl (fun a x => a ++ [f x]) acc = acc ++ l.map f := by
  intro l
  induction l with
  | nil => intro acc; simp
  | cons x t ih => intro acc; simp [ih, List.append_assoc]

/-- `handleRequestApp` appends exactly the page's entities, each with its
guid reconciled from the metadata block. -/
theorem handleRequestApp_eq (acc : List metadata.App) (resp : metadata.AppResponse) :
    metadata.handleRequestApp acc resp
      = acc ++ resp.Resources.map (fun r => { r.Entity with Guid := r.Meta.Guid }) := by
  unfold metadata.handleRequestApp
  exact foldl_append_singleton _ resp.Resources acc

/-- `handleRequestRoute` appends exactly the page's entities, each with
its guid reconciled from the metadata block. -/
theorem handleRequestRoute_eq (acc : List metadata.Route) (resp : metadata.RouteResponse) :
    metadata.handleRequestRoute acc resp
      = acc ++ resp.Resources.map (fun r => { r.Entity with Guid := r.Meta.Guid }) := by
  unfold metadata.handleRequestRoute
  exact foldl_append_singleton _ resp.Resources acc

end Helpers

/-- Claim C2: for every decoded page item whose wrapper is
`{metadata:{guid:"G"}, entity:{guid:"OTHER"}}`, the record stored in the
cache accumulator has identifier `"G"` — the metadata-block guid
overrides the entity-body guid — for both the app and the route cache
handlers.  Stated for whole pages: the stored records are exactly the
page's entities with each `Guid` replaced by the wrapper's metadata
guid; in particular a wrapper `⟨⟨g⟩, {entity with Guid := other}⟩` is
stored as `{entity with Guid := g}`. -/
theorem C2_identifier_reconciliation :
    (∀ (acc : List metadata.App) (resp : metadata.AppResponse),
        metadata.handleRequestApp acc resp
          = acc ++ resp.Resources.map (fun r => { r.Entity with Guid := r.Meta.Guid }))
    ∧ (∀ (acc : List metadata.Route) (resp : metadata.RouteResponse),
        metadata.handleRequestRoute acc resp
          = acc ++ resp.Resources.map (fun r => { r.Entity with Guid := r.Meta.Guid }))
    ∧ (∀ (g other : String) (entity : metadata.App) (c p : Int) (u : String),
        metadata.handleRequestApp []
            { Count := c, Pages := p, NextUrl := u,
              Resources := [{ Meta := ⟨g⟩, Entity := { entity with Guid := other } }] }
          = [{ entity with Guid := g }]) := by
  refine ⟨handleRequestApp_eq, handleRequestRoute_eq, ?_⟩
  intro g other entity c p u
  simp [handleRequestApp_eq]

/-- Claim C9: `getAppMetadata` returns a `nil` error for every input (the
error result of `callRetriableAPI` is discarded), so the error branch in
`LoadAppCache` is unreachable and every `LoadAppCache` call replaces the
published app snapshot with the freshly accumulated records. -/
theorem C9_getAppMetadata_nil_error :
    ∀ (s : metadata.AppMetadataState) (script : metadata.FetchScript metadata.AppResponse),
      (metadata.getAppMetadata s script).1.2 = none
      ∧ metadata.AllApps (metadata.LoadAppCache s script)
          = (metadata.callRetriableAPI metadata.handleRequestApp
              script.pages script.netFail []).1 := by
  intro s script
  exact ⟨rfl, rfl⟩


/-- Claim C1: the claim states that a reload that fails after ≥ 1 pages
leaves the published snapshot unchanged for both caches.  The route
cache honours this, but `getAppMetadata` discards the fetcher's error
and returns `nil`, so `LoadAppCache`'s own error branch is dead code and
the partially accumulated records replace the app snapshot.  At the
concrete failing input: the fetch reports failure after one page, yet
`AllApps` afterwards is the partial accumulation, not the pre-reload
snapshot; `AllRoutes` under the same scenario is retained.  This
evaluates the code at the failing input for the code_bug record. -/
theorem C1_retention_on_failure_bug :
    (metadata.callRetriableAPI metadata.handleRequestApp
        c1AppScript.pages c1AppScript.netFail []).2 = some "network error"
    ∧ metadata.AllApps (metadata.LoadAppCache c1PreState c1AppScript)
        = [{ c1NewEntity with Guid := "app-new" }]
    ∧ metadata.AllApps (metadata.LoadAppCache c1PreState c1AppScript) ≠ [c1OldApp]
    ∧ (metadata.getRouteMetadata c1RouteScript).2 = some "network error"
    ∧ metadata.AllRoutes (metadata.LoadRouteCache c1PreRouteState c1RouteScript)
        = [c1OldRoute] := by
  refine ⟨rfl, rfl, ?_, rfl, rfl⟩
  decide

/-- Claim C7 counterexample: the claim says both finders return a
designated not-found zero-value record.  `FindRouteMetadata` instead
returns a fresh record whose `Guid` is the requested identifier: on an
empty cache, looking up `"g1"` does not give the zero-value `Route{}`. -/
theorem C7_not_found_counterexample :
    metadata.FindRouteMetadata { routesMetadataCache := [] } "g1" ≠ metadata.Route.zero := by
  decide

/-- Claim C7 (amended): `FindAppMetadata` is a linear scan returning the
first matching record and the zero-value `App{}` when the identifier is
absent; `FindRouteMetadata` is a linear scan returning the first
matching record and, when the identifier is absent, a fresh record whose
`Guid` is the requested identifier and whose other fields are zero
(never a null reference — the model returns a value in both cases).
Stated via `List.find?`, which returns the first element matching the
predicate. -/
theorem C7_find_by_id :
    (∀ (s : metadata.AppMetadataState) (appId : String),
        metadata.FindAppMetadata s appId
          = ((s.appsMetadataCache.find? (fun a => a.Guid == appId)).getD metadata.App.zero))
    ∧ (∀ (s : metadata.RouteMetadataState) (routeGuid : String),
        metadata.FindRouteMetadata s routeGuid
          = ((s.routesMetadataCache.find? (fun r => r.Guid == routeGuid)).getD
              { metadata.Route.zero with Guid := routeGuid })) := by
  constructor
  · intro s appId
    unfold metadata.FindAppMetadata
    induction s.appsMetadataCache with
    | nil => rfl
    | cons a t ih =>
      by_cases h : a.Guid == appId
      · simp [metadata.findAppInList, h, List.find?_cons_of_pos]
      · simp only [Bool.not_eq_true] at h
        simp [metadata.findAppInList, h, List.find?_cons_of_neg, ih]
  · intro s routeGuid
    unfold metadata.FindRouteMetadata
    induction s.routesMetadataCache with
    | nil => rfl
    | cons a t ih =>
      by_cases h : a.Guid == routeGuid
      · simp [metadata.findRouteInList, h, List.find?_cons_of_pos]
      · simp only [Bool.not_eq_true] at h
        simp [metadata.findRouteInList, h, List.find?_cons_of_neg, ih]

/-- One `appendEvict` step, in closed form: append and drop the overflow
(0 or 1 elements) from the front. -/
theorem appendEvict_eq_drop (lines : List toplog.LogLine) (l : toplog.LogLine)
    (h : lines.length ≤ toplog.MAX_LOG_FILES) :
    toplog.appendEvict lines l
      = (lines ++ [l]).drop ((lines.length + 1) - toplog.MAX_LOG_FILES) := by
  simp only [toplog.appendEvict, List.length_append, List.length_singleton]
  split
  · next hgt =>
    have hone : lines.length + 1 - toplog.MAX_LOG_FILES = 1 := by omega
    rw [hone]
  · next hle =>
    have hzero : lines.length + 1 - toplog.MAX_LOG_FILES = 0 := by omega
    rw [hzero, List.drop_zero]

/-- Folding `appendEvict` over any message sequence keeps exactly the
suffix that fits: the buffer is the concatenation with the overflow
dropped from the front (FIFO). -/
theorem foldl_appendEvict (ms : List toplog.LogLine) :
    ∀ (acc : List toplog.LogLine), acc.length ≤ toplog.MAX_LOG_FILES →
      ms.foldl toplog.appendEvict acc
        = (acc ++ ms).drop ((acc.length + ms.length) - toplog.MAX_LOG_FILES) := by
  induction ms with
  | nil =>
    intro acc hacc
    have hzero : acc.length - toplog.MAX_LOG_FILES = 0 := by omega
    simp [hzero]
  | cons m rest ih =>
    intro acc hacc
    have hstep := appendEvict_eq_drop acc m hacc
    have hlen : (toplog.appendEvict acc m).length ≤ toplog.MAX_LOG_FILES := by
      rw [hstep, List.length_drop, List.length_append, List.length_singleton]
      omega
    have hd : (acc.length + 1) - toplog.MAX_LOG_FILES ≤ (acc ++ [m]).length := by
      rw [List.length_append, List.length_singleton]; omega
    have hmain := ih (toplog.appendEvict acc m) hlen
    rw [List.foldl_cons, hmain, hstep]
    rw [List.length_drop, List.length_append, List.length_singleton]
    rw [← List.drop_append_of_le_length hd, List.drop_drop]
    congr 1
    · simp only [List.length_cons]; omega
    · simp

/-- The buffer update of `logMsg` is exactly `appendEvict` with the
normalized, freshly timestamped line; the trailing auto-scroll touches
only `viewOffset`. -/
theorem logMsg_debugLines (lvl : toplog.LogLevel) (msg : String) (s : toplog.TopLogState) :
    (toplog.logMsg lvl msg s).debugLines
      = toplog.appendEvict s.debugLines
          (toplog.NewLogLine lvl (toplog.normalizeMsg msg) s.clock) := by
  simp only [toplog.logMsg, toplog.scrollToLastLogLine]
  split <;> rfl

/-- Claim C3: starting from an empty log buffer, appending
`MAX_LOG_FILES + K` lines (K ≥ 1) leaves exactly `MAX_LOG_FILES` lines
and the buffer is the input sequence with its `K` oldest entries dropped
(FIFO eviction of exactly the K oldest positions); and every single
append — the buffer update `appendEvict` performed by `logMsg`, hence by
each leveled append operation — preserves the invariant that the buffer
holds at most `MAX_LOG_FILES` (= 1000) lines. -/
theorem C3_ring_buffer_bound (ms : List toplog.LogLine) (K : Nat)
    (hK : 1 ≤ K) (hlen : ms.length = toplog.MAX_LOG_FILES + K)
    (lvl : toplog.LogLevel) (msg : String) (s : toplog.TopLogState)
    (hs : s.debugLines.length ≤ toplog.MAX_LOG_FILES) :
    ms.foldl toplog.appendEvict [] = ms.drop K
    ∧ (ms.foldl toplog.appendEvict []).length = toplog.MAX_LOG_FILES
    ∧ (toplog.logMsg lvl msg s).debugLines.length ≤ toplog.MAX_LOG_FILES := by
  have hfold := foldl_appendEvict ms [] (by simp)
  have hKdrop : ([] : List toplog.LogLine).length + ms.length - toplog.MAX_LOG_FILES = K := by
    simp only [List.length_nil]; omega
  rw [hKdrop, List.nil_append] at hfold
  refine ⟨hfold, ?_, ?_⟩
  · rw [hfold, List.length_drop]; omega
  · rw [logMsg_debugLines,
        appendEvict_eq_drop _ _ hs, List.length_drop, List.length_append,
        List.length_singleton]
    omega


/-- Witness instantiating C3 at 1000 + 1 concrete lines. -/
theorem C3_ring_buffer_bound_witness :
    (List.replicate 1001 c3Line).foldl toplog.appendEvict []
        = (List.replicate 1001 c3Line).drop 1
    ∧ ((List.replicate 1001 c3Line).foldl toplog.appendEvict []).length
        = toplog.MAX_LOG_FILES
    ∧ (toplog.logMsg .InfoLevel "hello" emptyLogState).debugLines.length
        ≤ toplog.MAX_LOG_FILES :=
  C3_ring_buffer_bound (List.replicate 1001 c3Line) 1 (by decide)
    (by rw [List.length_replicate]; norm_num [toplog.MAX_LOG_FILES])
    .InfoLevel "hello" emptyLogState (by decide)

/-- Dropping the front element cannot increase the marker count. -/
theorem markerCount_drop_one_le (l : List toplog.LogLine) :
    toplog.markerCount (l.drop 1) ≤ toplog.markerCount l := by
  cases l with
  | nil => simp
  | cons a t =>
    simp only [toplog.markerCount, List.drop_succ_cons, List.drop_zero, List.countP_cons]
    omega

/-- Erasing the first marker from a buffer holding at most one marker
leaves a buffer with none. -/
theorem markerCount_eraseP (l : List toplog.LogLine)
    (h : toplog.markerCount l ≤ 1) :
    toplog.markerCount (l.eraseP (fun logLine => logLine.level == .MarkerLevel)) = 0 := by
  induction l with
  | nil => rfl
  | cons a t ih =>
    by_cases ha : a.level = toplog.LogLevel.MarkerLevel
    · have hb : (a.level == toplog.LogLevel.MarkerLevel) = true := by simp [ha]
      have hcount : toplog.markerCount (a :: t) = toplog.markerCount t + 1 := by
        simp [toplog.markerCount, List.countP_cons, hb]
      have ht : toplog.markerCount t = 0 := by omega
      rw [List.eraseP_cons, hb]
      simpa using ht
    · have hb : (a.level == toplog.LogLevel.MarkerLevel) = false := by
        simpa using ha
      have hcount : toplog.markerCount (a :: t) = toplog.markerCount t := by
        simp [toplog.markerCount, List.countP_cons, hb]
      rw [List.eraseP_cons, hb]
      have hres := ih (by omega)
      simp only [cond_false, toplog.markerCount, List.countP_cons, hb] at hres ⊢
      simpa using hres

/-- Appending a marker line to a marker-free buffer (with eviction)
yields a buffer with exactly one marker, sitting at the tail. -/
theorem appendEvict_marker (erased : List toplog.LogLine) (mline : toplog.LogLine)
    (h0 : toplog.markerCount erased = 0)
    (hm : mline.level = toplog.LogLevel.MarkerLevel) :
    toplog.markerCount (toplog.appendEvict erased mline) = 1
    ∧ (toplog.appendEvict erased mline).getLast? = some mline := by
  have hb : (mline.level == toplog.LogLevel.MarkerLevel) = true := by simp [hm]
  have hone : toplog.markerCount (erased ++ [mline]) = 1 := by
    simp only [toplog.markerCount] at h0 ⊢
    simp [List.countP_append, List.countP_cons, hb, h0]
  simp only [toplog.appendEvict]
  split
  · next hgt =>
    cases erased with
    | nil => simp [toplog.MAX_LOG_FILES] at hgt
    | cons x t =>
      have ht : toplog.markerCount t = 0 := by
        have hx : toplog.markerCount (x :: t) = 0 := h0
        simp only [toplog.markerCount, List.countP_cons] at hx ⊢
        omega
      constructor
      · simp only [List.cons_append, List.drop_succ_cons, List.drop_zero]
        simp only [toplog.markerCount] at ht ⊢
        simp [List.countP_append, List.countP_cons, hb, ht]
      · simp only [List.cons_append, List.drop_succ_cons, List.drop_zero]
        exact List.getLast?_concat t
  · exact ⟨hone, List.getLast?_concat erased⟩

/-- `markLastLocation` on a buffer with at most one marker: afterwards
there is exactly one marker and it is the last line. -/
theorem markLastLocation_once (s : toplog.TopLogState)
    (h : toplog.markerCount s.debugLines ≤ 1) :
    toplog.markerCount (toplog.markLastLocation s).debugLines = 1
    ∧ ((toplog.markLastLocation s).debugLines.getLast?.map toplog.LogLine.level)
        = some toplog.LogLevel.MarkerLevel := by
  have h0 := markerCount_eraseP s.debugLines h
  have hres := appendEvict_marker
    (s.debugLines.eraseP (fun logLine => logLine.level == .MarkerLevel))
    (toplog.NewLogLine .MarkerLevel (toplog.normalizeMsg "------")
      ({ s with debugLines :=
          s.debugLines.eraseP (fun logLine => logLine.level == .MarkerLevel) } :
            toplog.TopLogState).clock)
    h0 rfl
  unfold toplog.markLastLocation
  rw [logMsg_debugLines]
  exact ⟨hres.1, by rw [hres.2]; rfl⟩

/-- Non-marker appends via `logMsg` never increase the marker count. -/
theorem logMsg_markerCount_le (lvl : toplog.LogLevel) (msg : String)
    (s : toplog.TopLogState) (h : lvl ≠ toplog.LogLevel.MarkerLevel) :
    toplog.markerCount (toplog.logMsg lvl msg s).debugLines
      ≤ toplog.markerCount s.debugLines := by
  rw [logMsg_debugLines]
  have hb : ((toplog.NewLogLine lvl (toplog.normalizeMsg msg) s.clock).level
      == toplog.LogLevel.MarkerLevel) = false := by
    simpa [toplog.NewLogLine] using h
  have happ : toplog.markerCount
      (s.debugLines ++ [toplog.NewLogLine lvl (toplog.normalizeMsg msg) s.clock])
        = toplog.markerCount s.debugLines := by
    simp [toplog.markerCount, List.countP_append, List.countP_cons, hb]
  simp only [toplog.appendEvict]
  split
  · next hgt =>
    exact le_trans (markerCount_drop_one_le _) (le_of_eq happ)
  · exact le_of_eq happ

/-- Claim C5: at most one marker-level line exists in the buffer at any
time: on a buffer with at most one marker, `markLastLocation` (invoked
on viewport close) first deletes any pre-existing marker and then
appends the new one at the tail, so one application — and a second
application — leaves exactly one marker line, positioned at the most
recent append point (the buffer's last line); and the ordinary leveled
appends never increase the marker count. -/
theorem C5_marker_uniqueness (s : toplog.TopLogState)
    (h : toplog.markerCount s.debugLines ≤ 1) :
    (toplog.markerCount (toplog.markLastLocation s).debugLines = 1
      ∧ ((toplog.markLastLocation s).debugLines.getLast?.map toplog.LogLine.level)
          = some toplog.LogLevel.MarkerLevel)
    ∧ (toplog.markerCount (toplog.markLastLocation (toplog.markLastLocation s)).debugLines = 1
      ∧ (((toplog.markLastLocation (toplog.markLastLocation s)).debugLines.getLast?.map
            toplog.LogLine.level) = some toplog.LogLevel.MarkerLevel))
    ∧ (∀ (lvl : toplog.LogLevel) (msg : String), lvl ≠ toplog.LogLevel.MarkerLevel →
        toplog.markerCount (toplog.logMsg lvl msg s).debugLines
          ≤ toplog.markerCount s.debugLines) := by
  have h1 := markLastLocation_once s h
  have h2 := markLastLocation_once (toplog.markLastLocation s) (by omega)
  exact ⟨h1, h2, fun lvl msg hlvl => logMsg_markerCount_le lvl msg s hlvl⟩


/-- Witness for C5. -/
theorem C5_marker_uniqueness_witness :
    toplog.markerCount (toplog.markLastLocation c5State).debugLines = 1
    ∧ toplog.markerCount
        (toplog.markLastLocation (toplog.markLastLocation c5State)).debugLines = 1
    ∧ toplog.markerCount (toplog.logMsg .InfoLevel "x" c5State).debugLines
        ≤ toplog.markerCount c5State.debugLines :=
  ⟨(C5_marker_uniqueness c5State (by decide)).1.1,
   (C5_marker_uniqueness c5State (by decide)).2.1.1,
   (C5_marker_uniqueness c5State (by decide)).2.2 .InfoLevel "x" (by decide)⟩

/-- Claim C6: the claim states every scroll operation keeps the offset in
`[0, max(0, L−H)]`.  It fails on `pageDown`: with an empty buffer
(`L = 0`) and visible height `H = height − WindowHeaderSize = 10`, Go's
`pageDown` sets `viewOffset = len(debugLines) - h = -10`, outside the
claimed range `[0, 0]` (and a negative offset makes `writeLogLines`
index `debugLines[viewOffset]` out of range on the next redraw).  This
evaluates the code at the failing input for the code_bug record. -/
theorem C6_pageDown_negative_offset :
    (toplog.pageDown emptyLogState).viewOffset = -10
    ∧ ¬(0 ≤ (toplog.pageDown emptyLogState).viewOffset
        ∧ (toplog.pageDown emptyLogState).viewOffset
            ≤ max 0 ((emptyLogState.debugLines.length : Int)
                - (emptyLogState.height - toplog.WindowHeaderSize))) := by
  decide

/-- Claim C10: horizontal panning is total and safe.  `arrowLeft` never
takes the offset below 0 (and `arrowRight` keeps it non-negative), and
for every message and every non-negative offset, the truncation step of
`getFormattedLogLine` drops exactly the leading characters when the
offset is smaller than the message length — the slice start staying in
range — and yields the empty message otherwise. -/
theorem C10_horizontal_pan_safety (s : toplog.TopLogState) (ho : Int) (msg : String)
    (h0 : 0 ≤ ho) :
    0 ≤ (toplog.arrowLeft s).horizonalOffset
    ∧ (0 ≤ s.horizonalOffset → 0 ≤ (toplog.arrowRight s).horizonalOffset)
    ∧ (ho < (msg.length : Int) →
        toplog.truncMsg ho msg = msg.drop ho.toNat ∧ ho.toNat ≤ msg.length)
    ∧ ((msg.length : Int) ≤ ho → toplog.truncMsg ho msg = "") := by
  refine ⟨?_, ?_, ?_, ?_⟩
  · simp only [toplog.arrowLeft]
    split <;> omega
  · intro hs
    simp only [toplog.arrowRight]
    omega
  · intro hlt
    refine ⟨?_, ?_⟩
    · simp only [toplog.truncMsg, if_pos hlt]
    · omega
  · intro hge
    have hnot : ¬(ho < (msg.length : Int)) := by omega
    simp only [toplog.truncMsg, if_neg hnot]

/-- Witness for C10 at offsets 2 and 7 against the message "hello". -/
theorem C10_horizontal_pan_safety_witness :
    0 ≤ (toplog.arrowLeft emptyLogState).horizonalOffset
    ∧ toplog.truncMsg 2 "hello" = "hello".drop (2 : Int).toNat
    ∧ (2 : Int).toNat ≤ "hello".length
    ∧ toplog.truncMsg 7 "hello" = "" :=
  ⟨(C10_horizontal_pan_safety emptyLogState 2 "hello" (by decide)).1,
   ((C10_horizontal_pan_safety emptyLogState 2 "hello" (by decide)).2.2.1 (by decide)).1,
   ((C10_horizontal_pan_safety emptyLogState 2 "hello" (by decide)).2.2.1 (by decide)).2,
   (C10_horizontal_pan_safety emptyLogState 7 "hello" (by decide)).2.2.2 (by decide)⟩

/-- The accumulation loop of `GetTotalMemoryAllStartedApps`, in closed
form: starting value plus `MEGABYTE` times the sum of
`MemoryMB * Instances` over the STARTED apps. -/
theorem foldl_started_mem (apps : List metadata.App) (t : ℚ) :
    apps.foldl
        (fun total app =>
          if app.State == "STARTED" then total + app.MemoryMB * metadata.MEGABYTE * app.Instances
          else total) t
      = t + (((apps.filter (fun a => a.State == "STARTED")).map
            (fun a => a.MemoryMB * a.Instances)).sum) * metadata.MEGABYTE := by
  induction apps generalizing t with
  | nil => simp
  | cons a rest ih =>
    by_cases ha : a.State = "STARTED"
    · have hb : (a.State == "STARTED") = true := by simp [ha]
      simp only [List.foldl_cons, List.filter_cons, hb, if_true, ih, List.map_cons,
        List.sum_cons]
      ring
    · have hb : (a.State == "STARTED") = false := by simpa using ha
      simp only [List.foldl_cons, List.filter_cons, hb, Bool.false_eq_true, if_false, ih]

/-- Claim C4: after a reload both memoized totals are reset to 0
("uncomputed"); the first `GetTotalMemoryAllStartedApps` call then
returns `MEGABYTE` times the sum of `MemoryMB * Instances` over exactly
the STARTED apps of the published snapshot; re-invoking without an
intervening reload returns the identical value and leaves the state
unchanged; and whenever the cached total is non-zero the accessor
answers from the cache alone, independent of the snapshot contents (no
recomputation). -/
theorem C4_total_memory_memoized (s : metadata.AppMetadataState)
    (script : metadata.FetchScript metadata.AppResponse)
    (s' : metadata.AppMetadataState) (apps' : List metadata.App)
    (h : s'.totalMemoryAllStartedApps ≠ 0) :
    (metadata.LoadAppCache s script).totalMemoryAllStartedApps = 0
    ∧ (metadata.LoadAppCache s script).totalDiskAllStartedApps = 0
    ∧ (metadata.GetTotalMemoryAllStartedApps (metadata.LoadAppCache s script)).1
        = ((((metadata.LoadAppCache s script).appsMetadataCache.filter
              (fun a => a.State == "STARTED")).map
              (fun a => a.MemoryMB * a.Instances)).sum) * metadata.MEGABYTE
    ∧ metadata.GetTotalMemoryAllStartedApps
          (metadata.GetTotalMemoryAllStartedApps (metadata.LoadAppCache s script)).2
        = ((metadata.GetTotalMemoryAllStartedApps (metadata.LoadAppCache s script)).1,
           (metadata.GetTotalMemoryAllStartedApps (metadata.LoadAppCache s script)).2)
    ∧ metadata.GetTotalMemoryAllStartedApps { s' with appsMetadataCache := apps' }
        = (s'.totalMemoryAllStartedApps, { s' with appsMetadataCache := apps' }) := by
  have h0 : (metadata.LoadAppCache s script).totalMemoryAllStartedApps = 0 := rfl
  have h0d : (metadata.LoadAppCache s script).totalDiskAllStartedApps = 0 := rfl
  set sR := metadata.LoadAppCache s script with hsR
  set T : ℚ := (((sR.appsMetadataCache.filter (fun a => a.State == "STARTED")).map
      (fun a => a.MemoryMB * a.Instances)).sum) * metadata.MEGABYTE with hT
  have hfirst : metadata.GetTotalMemoryAllStartedApps sR
      = (T, { sR with totalMemoryAllStartedApps := T }) := by
    rw [metadata.GetTotalMemoryAllStartedApps, if_pos h0, h0, foldl_started_mem, zero_add]
  refine ⟨h0, h0d, ?_, ?_, ?_⟩
  · rw [hfirst]
  · rw [hfirst]
    by_cases ht : T = 0
    · have hzero : ({ sR with totalMemoryAllStartedApps := T } :
          metadata.AppMetadataState).totalMemoryAllStartedApps = 0 := ht
      rw [metadata.GetTotalMemoryAllStartedApps, if_pos hzero]
      have : ({ sR with totalMemoryAllStartedApps := T } :
          metadata.AppMetadataState).appsMetadataCache.foldl
            (fun total app =>
              if app.State == "STARTED"
              then total + app.MemoryMB * metadata.MEGABYTE * app.Instances
              else total)
            ({ sR with totalMemoryAllStartedApps := T } :
              metadata.AppMetadataState).totalMemoryAllStartedApps = T := by
        rw [foldl_started_mem]
        show T + T = T
        rw [ht, add_zero]
      rw [this]
    · have hne : ({ sR with totalMemoryAllStartedApps := T } :
          metadata.AppMetadataState).totalMemoryAllStartedApps ≠ 0 := ht
      rw [metadata.GetTotalMemoryAllStartedApps, if_neg hne]
  · have hne : ({ s' with appsMetadataCache := apps' } :
        metadata.AppMetadataState).totalMemoryAllStartedApps ≠ 0 := h
    rw [metadata.GetTotalMemoryAllStartedApps, if_neg hne]

/-- Witness for C4 at concrete states: a reload resets the total, and a
state with cached total 5 answers from the cache. -/
theorem C4_total_memory_memoized_witness :
    (metadata.LoadAppCache ⟨[], 0, 0⟩ ⟨[], false⟩).totalMemoryAllStartedApps = 0
    ∧ metadata.GetTotalMemoryAllStartedApps ⟨[], 5, 0⟩ = (5, ⟨[], 5, 0⟩) :=
  ⟨(C4_total_memory_memoized ⟨[], 0, 0⟩ ⟨[], false⟩ ⟨[], 5, 0⟩ [] (by decide)).1,
   (C4_total_memory_memoized ⟨[], 0, 0⟩ ⟨[], false⟩ ⟨[], 5, 0⟩ [] (by decide)).2.2.2.2⟩

/-- Concatenation distributes over list append. -/
theorem concatLines_append (a b : List String) :
    concatLines (a ++ b) = concatLines a ++ concatLines b := by
  induction a with
  | nil =>
    show concatLines b = "" ++ concatLines b
    rw [String.empty_append]
  | cons x t ih =>
    show x ++ concatLines (t ++ b) = (x ++ concatLines t) ++ concatLines b
    rw [ih, String.append_assoc]

/-- The export loop over indices `0..n-1` produces the concatenation of
the first `n` formatted lines. -/
theorem export_fold (lines : List toplog.LogLine) (ho : Int) :
    ∀ n, n ≤ lines.length →
      (List.range n).foldl
          (fun buf i =>
            buf ++ toplog.formatLogLine ho (lines.getD i (toplog.NewLogLine .InfoLevel "" 0)))
          ""
        = concatLines ((lines.take n).map (toplog.formatLogLine ho)) := by
  intro n
  induction n with
  | zero => intro _; rfl
  | succ k ih =>
    intro hk
    have hlt : k < lines.length := by omega
    rw [List.range_succ, List.foldl_append, ih (by omega)]
    simp only [List.foldl_cons, List.foldl_nil]
    rw [List.take_succ, List.getElem?_eq_getElem hlt]
    simp only [Option.toList_some, List.map_append, List.map_cons, List.map_nil,
      concatLines_append]
    rw [List.getD_eq_getElem lines (toplog.NewLogLine .InfoLevel "" 0) hlt]
    simp only [concatLines, String.append_empty]

/-- Claim C8 (amended): `getAllLogLines` serializes every buffered line,
in buffer order, using the same per-line formatter as the display
(`formatLogLine`, which includes the level's color prefix, renders
marker lines as the fixed banner, and applies the current horizontal pan
truncation to the message), and is independent of the vertical scroll
offset. -/
theorem C8_export_serialization (s : toplog.TopLogState) :
    toplog.getAllLogLines s
      = concatLines (s.debugLines.map (toplog.formatLogLine s.horizonalOffset))
    ∧ ∀ v : Int, toplog.getAllLogLines { s with viewOffset := v }
        = toplog.getAllLogLines s := by
  constructor
  · have h := export_fold s.debugLines s.horizonalOffset s.debugLines.length le_rfl
    rw [List.take_length] at h
    simpa only [toplog.getAllLogLines, toplog.getFormattedLogLine] using h
  · intro v
    rfl


/-- Claim C8 counterexample: the export of a buffer holding a marker
line is not one line per buffered line in the claimed fixed format
`<timestamp> <level-code> <message>` (markers render as a banner and
every line carries a color prefix), and the export is not independent of
the viewport state: changing only the horizontal pan offset changes the
exported text. -/
theorem C8_export_format_counterexample :
    toplog.getAllLogLines c8State
        ≠ concatLines (c8State.debugLines.map claimedExportLine)
    ∧ toplog.getAllLogLines { c8State with horizonalOffset := 3 }
        ≠ toplog.getAllLogLines c8State := by
  decide
